import Mathlib

/-!
Verification of the stock-selection core (Selector.py) against its
specification.  The Python source is shallowly embedded: a DataFrame of
daily bars becomes a `List Bar`, pandas/numpy numeric code is translated
to exact `ℚ` arithmetic, missing values (NaN from short rolling windows)
become `Option ℚ`, and Python exceptions become `Except String`.
-/

/-- One row of the OHLCV frame (`date, open, high, low, close, volume`).
`open` is a Lean keyword, hence the trailing underscore. -/
structure Bar where
  date : Int
  open_ : ℚ
  high : ℚ
  low : ℚ
  close : ℚ
  volume : ℚ
deriving DecidableEq

instance : Inhabited Bar := ⟨⟨0, 0, 0, 0, 0, 0⟩⟩

instance {ε α : Type} [DecidableEq ε] [DecidableEq α] : DecidableEq (Except ε α) := by
  intro a b
  cases a <;> cases b
  case error.error e e2 =>
    exact if h : e = e2 then .isTrue (by rw [h]) else .isFalse (by intro hc; cases hc; exact h rfl)
  case error.ok e a2 => exact .isFalse (by intro hc; cases hc)
  case ok.error a2 e => exact .isFalse (by intro hc; cases hc)
  case ok.ok a1 a2 =>
    exact if h : a1 = a2 then .isTrue (by rw [h]) else .isFalse (by intro hc; cases hc; exact h rfl)

/-- Minimum of a list (pandas `Series.min` on a nonempty window; the
default for the impossible empty case is 0). -/
def listMin : List ℚ → ℚ
  | [] => 0
  | x :: xs => xs.foldl min x

/-- Maximum of a list (pandas `Series.max` on a nonempty window). -/
def listMax : List ℚ → ℚ
  | [] => 0
  | x :: xs => xs.foldl max x

/-- `l.tail(k)` of pandas: the last `k` rows (all rows when `k ≥ len`,
empty when `k = 0`). -/
def pdTail {α : Type} (k : ℕ) (l : List α) : List α := l.drop (l.length - k)

/-- Python slice `l.iloc[-w:]`: the last `w` entries, EXCEPT that `w = 0`
yields the whole list (since `l[-0:] = l[0:] = l` in Python). -/
def tailSlice {α : Type} (w : ℕ) (l : List α) : List α :=
  if w = 0 then l else l.drop (l.length - w)

/-- `np.diff`: first differences `[a₁−a₀, a₂−a₁, …]`. -/
def listDiff (l : List ℚ) : List ℚ :=
  ((l.drop 1).zip l).map (fun p => p.1 - p.2)

/-- Insertion into a sorted list, used to model the ascending sort that
`np.quantile` performs internally. -/
def insertSorted (x : ℚ) : List ℚ → List ℚ
  | [] => [x]
  | y :: ys => if x ≤ y then x :: y :: ys else y :: insertSorted x ys

/-- Ascending sort by insertion (structural recursion, kernel-reducible). -/
def sortQ (l : List ℚ) : List ℚ := l.foldr insertSorted []

/-- Floor of a rational as an integer (`Int.fdiv` is floor division). -/
def qfloor (x : ℚ) : ℤ := Int.fdiv x.num x.den

/-- Linear-interpolation quantile, the shared default of `np.quantile`
and `pandas.Series.quantile`: for sorted values `s` of length `n` and
`h = q·(n−1)` with `i = ⌊h⌋`, the result is `s[i] + (h−i)·(s[i+1]−s[i])`
(at `q = 1` the interpolation weight is 0, so the out-of-range default
is never multiplied in). -/
def quantile (xs : List ℚ) (q : ℚ) : ℚ :=
  let s := sortQ xs
  let n := s.length
  let h : ℚ := q * ((n : ℚ) - 1)
  let i : ℕ := (qfloor h).toNat
  let lo := s.getD i 0
  let hi := s.getD (i + 1) lo
  lo + (h - (i : ℚ)) * (hi - lo)

/-- `np.quantile` raises on an empty array; otherwise linear interpolation. -/
def npQuantile (xs : List ℚ) (q : ℚ) : Except String ℚ :=
  if xs.isEmpty then .error "zero-size array to reduction operation"
  else .ok (quantile xs q)

/-- `pandas.Series.quantile` validates the probability and then
interpolates linearly. -/
def pdQuantile (xs : List ℚ) (q : ℚ) : Except String ℚ :=
  if ¬ (0 ≤ q ∧ q ≤ 1) then .error "percentiles should all be in the interval 0 1"
  else .ok (quantile xs q)

/-- `series.rolling(window := w, min_periods := 1).agg f`: at position `t`
the aggregate of the last `min (t+1) w` values, positions `t+1−w … t`. -/
def rollApply (f : List ℚ → ℚ) (w : ℕ) (xs : List ℚ) : List ℚ :=
  (List.range xs.length).map (fun t => f ((xs.take (t + 1)).drop (t + 1 - w)))

/-- `series.rolling(w).mean()` with the default `min_periods = w`:
`none` (NaN) until `w` observations exist. -/
def rollMean (w : ℕ) (xs : List ℚ) : List (Option ℚ) :=
  (List.range xs.length).map (fun t =>
    if t + 1 < w then none
    else some (((xs.take (t + 1)).drop (t + 1 - w)).sum / (w : ℚ)))

/-- RSV used inside `compute_kdj` (Selector.py lines 14–16):
`(close − rolling-min(low, n)) / (rolling-max(high, n) − rolling-min(low, n) + 1e-9) * 100`,
rolling windows with `min_periods = 1`. -/
def rsvList (bars : List Bar) (n : ℕ) : List ℚ :=
  let low_n := rollApply listMin n (bars.map (·.low))
  let high_n := rollApply listMax n (bars.map (·.high))
  (List.range bars.length).map (fun t =>
    ((bars.map (·.close)).getD t 0 - low_n.getD t 0) /
      (high_n.getD t 0 - low_n.getD t 0 + 1 / 1000000000) * 100)

/-- The Python loop of `compute_kdj` for `i ≥ 1`, carrying `(K_prev, D_prev)`:
`K[i] = 2/3·K[i−1] + 1/3·rsv[i]`, `D[i] = 2/3·D[i−1] + 1/3·K[i]`. -/
def kdjRec (kPrev dPrev : ℚ) : List ℚ → List (ℚ × ℚ)
  | [] => []
  | r :: rest =>
    let k := 2 / 3 * kPrev + 1 / 3 * r
    let d := 2 / 3 * dPrev + 1 / 3 * k
    (k, d) :: kdjRec k d rest

/-- `compute_kdj` (Selector.py lines 10–27).  Returns, per row, the
`(K, D, J)` columns.  Empty input short-circuits: `df.assign(K = nan, …)`
on an empty frame yields empty columns, modelled as `[]`.  The seed row is
`K[0] = D[0] = 50` and `J = 3K − 2D` is computed vectorized at the end. -/
def compute_kdj (bars : List Bar) (n : ℕ) : List (ℚ × ℚ × ℚ) :=
  match bars with
  | [] => []
  | _ :: _ =>
    let rsv := rsvList bars n
    let kd : List (ℚ × ℚ) := (50, 50) :: kdjRec 50 50 (rsv.drop 1)
    kd.map (fun p => (p.1, p.2, 3 * p.1 - 2 * p.2))

/-- `compute_rsv` (Selector.py lines 38–50):
`RSV(N) = 100 × (C − LLV(L, N)) ÷ (HHV(C, N) − LLV(L, N) + 1e-9)` where the
high-side reference is the rolling max of CLOSE (not high), rolling windows
with `min_periods = 1`. -/
def compute_rsv (bars : List Bar) (n : ℕ) : List ℚ :=
  let low_n := rollApply listMin n (bars.map (·.low))
  let high_close_n := rollApply listMax n (bars.map (·.close))
  (List.range bars.length).map (fun t =>
    ((bars.map (·.close)).getD t 0 - low_n.getD t 0) /
      (high_close_n.getD t 0 - low_n.getD t 0 + 1 / 1000000000) * 100)

/-- `compute_bbi` (Selector.py lines 30–35): the average of the 3/6/12/24-bar
simple moving averages of close; `none` (NaN) until all four windows are
full, i.e. before 24 observations. -/
def compute_bbi (bars : List Bar) : List (Option ℚ) :=
  let c := bars.map (·.close)
  (List.range bars.length).map (fun t =>
    match (rollMean 3 c).getD t none, (rollMean 6 c).getD t none,
        (rollMean 12 c).getD t none, (rollMean 24 c).getD t none with
    | some a, some b, some d, some e => some ((a + b + d + e) / 4)
    | _, _, _, _ => none)

/-- Non-adjusted exponential moving average: `ewm(span := s, adjust := False).mean()`
has `y₀ = x₀` and `y_t = (1−α)·y_{t−1} + α·x_t` with `α = 2/(s+1)`. -/
def emaRec (alpha prevY : ℚ) : List ℚ → List ℚ
  | [] => []
  | x :: xs =>
    let y := (1 - alpha) * prevY + alpha * x
    y :: emaRec alpha y xs

/-- `series.ewm(span, adjust := False).mean()`. -/
def ewmMean (span : ℕ) (xs : List ℚ) : List ℚ :=
  match xs with
  | [] => []
  | x :: rest => x :: emaRec (2 / ((span : ℚ) + 1)) x rest

/-- `compute_dif` (Selector.py lines 53–57): `EMA(close, fast) − EMA(close, slow)`. -/
def compute_dif (bars : List Bar) (fast slow : ℕ) : List ℚ :=
  List.zipWith (fun a b => a - b) (ewmMean fast (bars.map (·.close)))
    (ewmMean slow (bars.map (·.close)))

/-- Python's `range(longest, min_window - 1, -1)`: window lengths from
`longest` down to `min_window` inclusive (empty when `longest < min_window`). -/
def descRange (longest min_window : ℕ) : List ℕ :=
  (List.range (longest + 1 - min_window)).map (fun i => longest - i)

/-- `longest = min(len(bbi), max_window or len(bbi))` — Python's `or`
treats both `None` and `0` as "no upper bound". -/
def longestOf (len : ℕ) (max_window : Option ℕ) : ℕ :=
  min len (match max_window with
    | none => len
    | some m => if m = 0 then len else m)

/-- The per-window computation of `bbi_deriv_uptrend` (Selector.py lines
123–125), factored out: take the trailing `w` values, normalize by the
window's first value, and take first differences. -/
def windowDiffs (b : List ℚ) (w : ℕ) : List ℚ :=
  listDiff ((tailSlice w b).map (fun x => x / (tailSlice w b).headD 1))

/-- The descending-window search loop of `bbi_deriv_uptrend` (Selector.py
lines 122–128).  An empty window makes `seg.iloc[0]` raise; an empty
difference list (window length 1) makes `np.quantile` raise; otherwise the
loop accepts the first window whose `q`-quantile of differences is ≥ 0. -/
def uptrendLoop (b : List ℚ) (q : ℚ) : List ℕ → Except String Bool
  | [] => .ok false
  | w :: ws =>
    if tailSlice w b = [] then .error "single positional indexer is out-of-bounds"
    else if windowDiffs b w = [] then .error "zero-size array to reduction operation"
    else if 0 ≤ quantile (windowDiffs b w) q then .ok true
    else uptrendLoop b q ws

/-- `bbi_deriv_uptrend` (Selector.py lines 83–128): validate `q_threshold`,
drop NaNs, fail when fewer than `min_window` values remain, then search
window lengths from `longest` down to `min_window`. -/
def bbi_deriv_uptrend (bbi : List (Option ℚ)) (min_window : ℕ) (max_window : Option ℕ)
    (q_threshold : ℚ) : Except String Bool :=
  if ¬ (0 ≤ q_threshold ∧ q_threshold ≤ 1) then .error "q_threshold 必须位于 [0, 1] 区间内"
  else if (bbi.filterMap id).length < min_window then .ok false
  else uptrendLoop (bbi.filterMap id) q_threshold
    (descRange (longestOf (bbi.filterMap id).length max_window) min_window)

/-- Configuration of `BBIKDJSelector` (Selector.py lines 179–193). -/
structure BBIKDJSelector where
  j_threshold : ℚ
  bbi_min_window : ℕ
  max_window : ℕ
  price_range_pct : ℚ
  bbi_q_threshold : ℚ
  j_q_threshold : ℚ
deriving DecidableEq

/-- `BBIKDJSelector.__init__` (Selector.py lines 179–193): the constructor
only stores the parameters — it performs no validation. -/
def mkBBIKDJSelector (j_threshold : ℚ) (bbi_min_window max_window : ℕ)
    (price_range_pct bbi_q_threshold j_q_threshold : ℚ) : Except String BBIKDJSelector :=
  .ok ⟨j_threshold, bbi_min_window, max_window, price_range_pct, bbi_q_threshold, j_q_threshold⟩

/-- `BBIKDJSelector._passes_filters` (Selector.py lines 196–231).
The BBI column assigned at line 198 is pure, so it is inlined at its use
site (line 207).  The step-0 price gate on an empty window compares with
pandas NaN, which is falsy, so the gate only fires on a nonempty window.
J values are never NaN in this exact-arithmetic model, so `.dropna()` on
the J window is the identity. -/
def bbikdj_passes (sel : BBIKDJSelector) (hist : List Bar) : Except String Bool :=
  let win := pdTail sel.max_window (hist.map (·.close))
  if win ≠ [] ∧ (listMin win ≤ 0 ∨ listMax win / listMin win - 1 > sel.price_range_pct) then
    .ok false
  else
    match bbi_deriv_uptrend (compute_bbi hist) sel.bbi_min_window (some sel.max_window)
        sel.bbi_q_threshold with
    | .error e => .error e
    | .ok up =>
      if up = false then .ok false
      else
        let jList := (compute_kdj hist 9).map (fun p => p.2.2)
        if jList.isEmpty then .error "single positional indexer is out-of-bounds"
        else
          let j_today := jList.getLastD 0
          let j_window := pdTail sel.max_window jList
          if j_window.isEmpty then .ok false
          else
            match pdQuantile j_window sel.j_q_threshold with
            | .error e => .error e
            | .ok j_quantile =>
              if ¬ (j_today < sel.j_threshold ∨ j_today ≤ j_quantile) then .ok false
              else
                let dif := compute_dif hist 12 26
                if dif.isEmpty then .error "single positional indexer is out-of-bounds"
                else .ok (decide (0 < dif.getLastD 0))

/-- Configuration of `SuperB1Selector` (Selector.py lines 315–349); the
nested `B1_params` become the stored inner `BBIKDJSelector`. -/
structure SuperB1Selector where
  lookback_n : ℕ
  close_vol_pct : ℚ
  price_drop_pct : ℚ
  j_threshold : ℚ
  j_q_threshold : ℚ
  bbi_selector : BBIKDJSelector
deriving DecidableEq

/-- `SuperB1Selector.__init__` (Selector.py lines 315–349): validates its
own top-level parameters and the presence of `B1_params`, in source order. -/
def mkSuperB1Selector (lookback_n : ℕ)
    (close_vol_pct price_drop_pct j_threshold j_q_threshold : ℚ)
    (B1_params : Option BBIKDJSelector) : Except String SuperB1Selector :=
  if lookback_n < 2 then .error "lookback_n 应 ≥ 2"
  else if ¬ (0 < close_vol_pct ∧ close_vol_pct < 1) then
    .error "close_vol_pct 应位于 (0, 1) 区间"
  else if ¬ (0 < price_drop_pct ∧ price_drop_pct < 1) then
    .error "price_drop_pct 应位于 (0, 1) 区间"
  else if ¬ (0 ≤ j_q_threshold ∧ j_q_threshold ≤ 1) then
    .error "j_q_threshold 应位于 [0, 1] 区间"
  else
    match B1_params with
    | none => .error "bbi_params没有给出"
    | some p => .ok ⟨lookback_n, close_vol_pct, price_drop_pct, j_threshold, j_q_threshold, p⟩

/-- Configuration of `PeakKDJSelector` (Selector.py lines 480–492). -/
structure PeakKDJSelector where
  j_threshold : ℚ
  max_window : ℕ
  fluc_threshold : ℚ
  gap_threshold : ℚ
  j_q_threshold : ℚ
deriving DecidableEq

/-- `PeakKDJSelector.__init__` (Selector.py lines 480–492): no validation. -/
def mkPeakKDJSelector (j_threshold : ℚ) (max_window : ℕ)
    (fluc_threshold gap_threshold j_q_threshold : ℚ) : Except String PeakKDJSelector :=
  .ok ⟨j_threshold, max_window, fluc_threshold, gap_threshold, j_q_threshold⟩

/-- Configuration of `BBIShortLongSelector` (Selector.py lines 666–682). -/
structure BBIShortLongSelector where
  n_short : ℕ
  n_long : ℕ
  m : ℕ
  bbi_min_window : ℕ
  max_window : ℕ
  bbi_q_threshold : ℚ
deriving DecidableEq

/-- `BBIShortLongSelector.__init__` (Selector.py lines 666–682): the only
check is `m ≥ 2`. -/
def mkBBIShortLongSelector (n_short n_long m bbi_min_window max_window : ℕ)
    (bbi_q_threshold : ℚ) : Except String BBIShortLongSelector :=
  if m < 2 then .error "m 必须 ≥ 2"
  else .ok ⟨n_short, n_long, m, bbi_min_window, max_window, bbi_q_threshold⟩

/-- Configuration of `BreakoutVolumeKDJSelector` (Selector.py lines 815–831). -/
structure BreakoutVolumeKDJSelector where
  j_threshold : ℚ
  up_threshold : ℚ
  volume_threshold : ℚ
  offset : ℕ
  max_window : ℕ
  price_range_pct : ℚ
  j_q_threshold : ℚ
deriving DecidableEq

/-- `BreakoutVolumeKDJSelector.__init__` (Selector.py lines 815–831): no
validation. -/
def mkBreakoutVolumeKDJSelector (j_threshold up_threshold volume_threshold : ℚ)
    (offset max_window : ℕ) (price_range_pct j_q_threshold : ℚ) :
    Except String BreakoutVolumeKDJSelector :=
  .ok ⟨j_threshold, up_threshold, volume_threshold, offset, max_window, price_range_pct,
    j_q_threshold⟩

/-- The closing-price span `hist.loc[tm_idx : hist.index[-2], "close"]` of
the consolidation check (Selector.py line 368): positions `idx … n−2`
inclusive. -/
def stableSeg (closes : List ℚ) (idx : ℕ) : List ℚ :=
  (closes.take (closes.length - 1)).drop idx

/-- Whether one candidate of the Step-1 loop fully qualifies: the inner
filter passes at it, the span `[t_m, target−1]` has at least 3 bars, and
its closing-price volatility is within `close_vol_pct`. -/
def superb1Good (innerPass : ℕ → Bool) (closes : List ℚ) (vol : ℚ) (idx : ℕ) : Bool :=
  innerPass idx && decide (3 ≤ (stableSeg closes idx).length) &&
    !(decide (listMin (stableSeg closes idx) ≤ 0) ||
      decide (listMax (stableSeg closes idx) / listMin (stableSeg closes idx) - 1 > vol))

/-- The Step-1 search loop of `SuperB1Selector._passes_filters`
(Selector.py lines 362–379), iterating candidate positions in ascending
(oldest-first) order.  `innerPass idx` stands for
`self.bbi_selector._passes_filters(hist.loc[:idx])` — the inner
BBIKDJSelector filter on history truncated inclusively at position `idx` —
which the loop treats as a black box.  A candidate that passes the inner
filter but has fewer than 3 bars in the span aborts the whole search
(`tm_idx = None; break`); one that fails the volatility bound is skipped
(`tm_idx = None; continue`); otherwise the loop stops at the first
success (`break`). -/
def superb1SearchLoop (innerPass : ℕ → Bool) (closes : List ℚ) (vol : ℚ) :
    List ℕ → Option ℕ
  | [] => none
  | idx :: rest =>
    if innerPass idx then
      if (stableSeg closes idx).length < 3 then none
      else if listMin (stableSeg closes idx) ≤ 0 ∨
          listMax (stableSeg closes idx) / listMin (stableSeg closes idx) - 1 > vol then
        superb1SearchLoop innerPass closes vol rest
      else some idx
    else superb1SearchLoop innerPass closes vol rest

/-- The candidate positions `lb_hist.index[:-1]` with
`lb_hist = hist.tail(lookback_n + 1)` (Selector.py lines 362–365), for a
history of `n` rows: the last `min n (lookback_n+1)` positions except the
final one, in ascending order. -/
def superb1Candidates (n lookback_n : ℕ) : List ℕ :=
  (List.range (min n (lookback_n + 1) - 1)).map (fun i => n - min n (lookback_n + 1) + i)

/-- Step-1 of `SuperB1Selector._passes_filters` (Selector.py lines
361–379): the search for `t_m` over the candidate window. -/
def superb1SearchTm (innerPass : ℕ → Bool) (closes : List ℚ) (lookback_n : ℕ)
    (vol : ℚ) : Option ℕ :=
  superb1SearchLoop innerPass closes vol (superb1Candidates closes.length lookback_n)

/-- Spec reading of Step-1, following the claim's words: scan the same
candidates most-recent-first, take the first (i.e. most recent) candidate
at which the inner filter passes and the consolidation check (at least 3
bars, volatility ≤ bound) also holds, and continue with earlier candidates
when a found candidate fails the consolidation check. -/
def superb1SearchTmSpec (innerPass : ℕ → Bool) (closes : List ℚ) (lookback_n : ℕ)
    (vol : ℚ) : Option ℕ :=
  (superb1Candidates closes.length lookback_n).reverse.find?
    (superb1Good innerPass closes vol)

/-- Concrete inner-filter outcomes for the C1 counterexample: the inner
BBIKDJ filter passes at truncation positions 23 and 25. -/
def c1InnerEx : ℕ → Bool := fun i => decide (i = 23 ∨ i = 25)

/-- Concrete 30-bar close series (constant 1) for the C1 counterexample. -/
def c1ClosesEx : List ℚ := List.replicate 30 1

/-- The RSV stage of `BBIShortLongSelector._passes_filters`
(Selector.py lines 698–715): compute short/long RSV, fail on fewer than
`m` bars, then over the trailing `m` bars require long RSV ≥ 80 throughout,
short RSV ≥ 80 at the first and last bar, and short RSV < 20 somewhere.
(The source assigns the RSV columns just before the length guard; both are
pure, so the order is immaterial.) -/
def rsv_stage (n_short n_long m : ℕ) (hist : List Bar) : Bool :=
  if hist.length < m then false
  else
    let winS := tailSlice m (compute_rsv hist n_short)
    let winL := tailSlice m (compute_rsv hist n_long)
    (winL.all (fun x => decide (80 ≤ x))) &&
      (decide (80 ≤ winS.headD 0) && decide (80 ≤ winS.getLastD 0)) &&
      (winS.any (fun x => decide (x < 20)))

/-- The claim's declarative reading of the RSV stage. -/
def rsv_stage_spec (n_short n_long m : ℕ) (hist : List Bar) : Prop :=
  m ≤ hist.length ∧
  (∀ x ∈ tailSlice m (compute_rsv hist n_long), 80 ≤ x) ∧
  80 ≤ (tailSlice m (compute_rsv hist n_short)).headD 0 ∧
  80 ≤ (tailSlice m (compute_rsv hist n_short)).getLastD 0 ∧
  ∃ x ∈ tailSlice m (compute_rsv hist n_short), x < 20

/-- `BBIShortLongSelector._passes_filters` (Selector.py lines 685–719):
BBI uptrend, then the RSV stage (lines 698–715, factored as `rsv_stage`),
then `DIF > 0` on the final bar. -/
def bbishortlong_passes (sel : BBIShortLongSelector) (hist : List Bar) : Except String Bool :=
  match bbi_deriv_uptrend (compute_bbi hist) sel.bbi_min_window (some sel.max_window)
      sel.bbi_q_threshold with
  | .error e => .error e
  | .ok up =>
    if up = false then .ok false
    else if rsv_stage sel.n_short sel.n_long sel.m hist = false then .ok false
    else
      match (compute_dif hist 12 26).getLast? with
      | none => .error "single positional indexer is out-of-bounds"
      | some d => .ok (decide (0 < d))

/-- 26-bar witness series for C9: closes rise linearly, lows sit one below
close except at bar 24 where low touches close (producing the short-RSV
dip of the re-entry pattern). -/
def c9HistW : List Bar :=
  (List.range 26).map (fun t =>
    ⟨t, 0, (t : ℚ) + 1, if t = 24 then 25 else (t : ℚ), (t : ℚ) + 1, 0⟩)

/-- Witness configuration for C9:
`n_short = 1, n_long = 3, m = 3, bbi_min_window = 2, max_window = 3,
bbi_q_threshold = 0`. -/
def c9SelW : BBIShortLongSelector := ⟨1, 3, 3, 2, 3, 0⟩

/-- The batch loop shared by every selector's `select` (e.g.
`BBIKDJSelector.select`, Selector.py lines 234–246): iterate the
symbol→series mapping in order, evaluate the per-symbol body
(truncation plus `_passes_filters`, a single fallible function here) and
collect passing symbols.  There is no `try/except` in the source, so a
Python exception raised for one symbol propagates out of the whole loop —
modelled by threading `Except`. -/
def selectSymbols {α : Type} (evalOne : α → Except String Bool) :
    List (String × α) → Except String (List String)
  | [] => .ok []
  | p :: rest =>
    match evalOne p.2 with
    | .error e => .error e
    | .ok b =>
      match selectSymbols evalOne rest with
      | .error e => .error e
      | .ok picks => .ok (if b then p.1 :: picks else picks)

/-- Concrete per-symbol evaluation for the C4 counterexample: symbol data
`0` raises (a missing-column `KeyError`), any other passes. -/
def c4EvalEx : ℕ → Except String Bool :=
  fun v => if v = 0 then .error "KeyError close" else .ok true

/-- The sentinel message every `explain_selection` returns when the filter
does not pass (Selector.py lines 252, 417, 591, 758, 914). -/
def sentinelMsg : String := "未通过筛选（不应出现）"

/-- `df[df["date"] <= date]`: truncate a series to bars at or before the
target date (order-preserving boolean-mask selection). -/
def truncAt (date : ℤ) (df : List Bar) : List Bar :=
  df.filter (fun b => decide (b.date ≤ date))

/-- `BBIKDJSelector.select` (Selector.py lines 234–246) with the
per-symbol filter abstracted: truncate at the date, skip empty histories,
keep the last `max_window + 20` bars, collect passing symbols in mapping
order. -/
def bbikdjSelect (passes : List Bar → Bool) (max_window : ℕ) (date : ℤ)
    (data : List (String × List Bar)) : List String :=
  (data.filter (fun p => !(truncAt date p.2).isEmpty &&
    passes (pdTail (max_window + 20) (truncAt date p.2)))).map Prod.fst

/-- `BBIKDJSelector.explain_selection` (Selector.py lines 248–293): same
truncation as `select`, the sentinel on a failing filter, otherwise the
rendered reasons (rendering abstracted). -/
def bbikdjExplain (passes : List Bar → Bool) (render : List Bar → String)
    (max_window : ℕ) (date : ℤ) (df : List Bar) : String :=
  if ¬ passes (pdTail (max_window + 20) (truncAt date df)) then sentinelMsg
  else render (pdTail (max_window + 20) (truncAt date df))

/-- `SuperB1Selector.select` (Selector.py lines 398–409): truncate, keep
the last `min_len` bars, skip histories shorter than `min_len`. -/
def superb1Select (passes : List Bar → Bool) (min_len : ℕ) (date : ℤ)
    (data : List (String × List Bar)) : List String :=
  (data.filter (fun p => decide (min_len ≤ (pdTail min_len (truncAt date p.2)).length) &&
    passes (pdTail min_len (truncAt date p.2)))).map Prod.fst

/-- `SuperB1Selector.explain_selection` (Selector.py lines 411–472). -/
def superb1Explain (passes : List Bar → Bool) (render : List Bar → String)
    (min_len : ℕ) (date : ℤ) (df : List Bar) : String :=
  if ¬ passes (pdTail min_len (truncAt date df)) then sentinelMsg
  else render (pdTail min_len (truncAt date df))

/-- `PeakKDJSelector.select` (Selector.py lines 571–584): same shape as
`BBIKDJSelector.select`. -/
def peakkdjSelect (passes : List Bar → Bool) (max_window : ℕ) (date : ℤ)
    (data : List (String × List Bar)) : List String :=
  (data.filter (fun p => !(truncAt date p.2).isEmpty &&
    passes (pdTail (max_window + 20) (truncAt date p.2)))).map Prod.fst

/-- `PeakKDJSelector.explain_selection` (Selector.py lines 586–659). -/
def peakkdjExplain (passes : List Bar → Bool) (render : List Bar → String)
    (max_window : ℕ) (date : ℤ) (df : List Bar) : String :=
  if ¬ passes (pdTail (max_window + 20) (truncAt date df)) then sentinelMsg
  else render (pdTail (max_window + 20) (truncAt date df))

/-- `BBIShortLongSelector.select` (Selector.py lines 722–741): the buffer
is `max(need_len, max_window)` bars. -/
def bbishortlongSelect (passes : List Bar → Bool) (need_len max_window : ℕ) (date : ℤ)
    (data : List (String × List Bar)) : List String :=
  (data.filter (fun p => !(truncAt date p.2).isEmpty &&
    passes (pdTail (max need_len max_window) (truncAt date p.2)))).map Prod.fst

/-- `BBIShortLongSelector.explain_selection` (Selector.py lines 743–808):
empty histories get a distinct no-data message, not the sentinel. -/
def bbishortlongExplain (passes : List Bar → Bool) (render : List Bar → String)
    (need_len max_window : ℕ) (date : ℤ) (df : List Bar) : String :=
  if (truncAt date df).isEmpty then "无历史数据"
  else if ¬ passes (pdTail (max need_len max_window) (truncAt date df)) then sentinelMsg
  else render (pdTail (max need_len max_window) (truncAt date df))

/-- `BreakoutVolumeKDJSelector.select` (Selector.py lines 897–907): the
filter receives the untrimmed truncated history. -/
def breakoutSelect (passes : List Bar → Bool) (date : ℤ)
    (data : List (String × List Bar)) : List String :=
  (data.filter (fun p => !(truncAt date p.2).isEmpty && passes (truncAt date p.2))).map Prod.fst

/-- `BreakoutVolumeKDJSelector.explain_selection` (Selector.py lines
909–976). -/
def breakoutExplain (passes : List Bar → Bool) (render : List Bar → String)
    (date : ℤ) (df : List Bar) : String :=
  if ¬ passes (truncAt date df) then sentinelMsg else render (truncAt date df)

/-- Concrete bar for the C7 witness. -/
def c7Bar : Bar := ⟨0, 1, 1, 1, 1, 1⟩

/-- A DataFrame for the aliasing model of C10: named columns of values.
Row content is irrelevant to the mutation question, so column payloads are
plain value lists. -/
abbrev Frame : Type := List (String × List ℚ)

/-- `frame[name] = values`: column assignment — overwrite the column when
present, append it otherwise. -/
def setcol (f : Frame) (name : String) (v : List ℚ) : Frame :=
  if f.any (fun p => decide (p.1 = name)) then
    f.map (fun p => if p.1 = name then (name, v) else p)
  else f ++ [(name, v)]

/-- The store of live DataFrames; Python locals hold addresses into it.
The caller-supplied frames are the cells present before a call. -/
abbrev Heap : Type := List Frame

/-- Read the frame at an address. -/
def heapGet (h : Heap) (a : ℕ) : Frame := h.getD a []

/-- Allocate a fresh frame: models the pandas operations that return a NEW
object — `df.copy()`, `df.assign(...)`, `df.sort_values(...)`,
boolean-mask selection, `df.iloc[indices].copy()`. -/
def alloc (h : Heap) (f : Frame) : Heap × ℕ := (h ++ [f], h.length)

/-- `hist["X"] = v`: mutate, IN PLACE, the frame cell the local refers to.
Were a filter translated without its `.copy()`, this would hit the
caller's cell and the preservation theorem below would fail. -/
def setcolAt (h : Heap) (a : ℕ) (name : String) (v : List ℚ) : Heap :=
  h.set a (setcol (heapGet h a) name v)

/-- Frame effects of `BBIKDJSelector._passes_filters` (Selector.py lines
196–231), with the numeric column computations abstracted as `colcomp`:
`hist = hist.copy()` (line 197), `hist["BBI"] = …` (198),
`kdj = compute_kdj(hist)` (216, `df.assign` allocates), and
`hist["DIF"] = …` (230).  The local `hist` enters at address `a`. -/
def bbikdjFilterHeap (colcomp : String → Frame → List ℚ) (h : Heap) (a : ℕ) : Heap :=
  let h1 := (alloc h (heapGet h a)).1
  let a1 := (alloc h (heapGet h a)).2
  let h2 := setcolAt h1 a1 "BBI" (colcomp "BBI" (heapGet h1 a1))
  let h3 := (alloc h2 (setcol (setcol (setcol (heapGet h2 a1) "K"
    (colcomp "K" (heapGet h2 a1))) "D" (colcomp "D" (heapGet h2 a1))) "J"
    (colcomp "J" (heapGet h2 a1)))).1
  setcolAt h3 a1 "DIF" (colcomp "DIF" (heapGet h3 a1))

/-- Frame effects of `PeakKDJSelector._passes_filters` (Selector.py lines
496–568): `hist = hist.copy().sort_values("date")` (500, fresh frame with
transformed rows), `hist["oc_max"] = …` (501), `_find_peaks`'s
`peaks_df = df.iloc[indices].copy()` plus `peaks_df["is_peak"] = True`
(158–164, mutations land on the fresh peaks frame), and `compute_kdj(hist)`
(559, `df.assign` allocates). -/
def peakkdjFilterHeap (colcomp : String → Frame → List ℚ) (rowTransform : Frame → Frame)
    (h : Heap) (a : ℕ) : Heap :=
  let h1 := (alloc h (rowTransform (heapGet h a))).1
  let a1 := (alloc h (rowTransform (heapGet h a))).2
  let h2 := setcolAt h1 a1 "oc_max" (colcomp "oc_max" (heapGet h1 a1))
  let h3 := (alloc h2 (rowTransform (heapGet h2 a1))).1
  let a2 := (alloc h2 (rowTransform (heapGet h2 a1))).2
  let h4 := setcolAt h3 a2 "is_peak" (colcomp "is_peak" (heapGet h3 a2))
  (alloc h4 (setcol (setcol (setcol (heapGet h4 a1) "K" (colcomp "K" (heapGet h4 a1)))
    "D" (colcomp "D" (heapGet h4 a1))) "J" (colcomp "J" (heapGet h4 a1)))).1

/-- Frame effects of `BBIShortLongSelector._passes_filters` (Selector.py
lines 685–719): `hist = hist.copy()` (686) then the four in-place column
assignments `BBI` (687), `RSV_short` (699), `RSV_long` (700), `DIF` (718). -/
def bbishortlongFilterHeap (colcomp : String → Frame → List ℚ) (h : Heap) (a : ℕ) : Heap :=
  let h1 := (alloc h (heapGet h a)).1
  let a1 := (alloc h (heapGet h a)).2
  let h2 := setcolAt h1 a1 "BBI" (colcomp "BBI" (heapGet h1 a1))
  let h3 := setcolAt h2 a1 "RSV_short" (colcomp "RSV_short" (heapGet h2 a1))
  let h4 := setcolAt h3 a1 "RSV_long" (colcomp "RSV_long" (heapGet h3 a1))
  setcolAt h4 a1 "DIF" (colcomp "DIF" (heapGet h4 a1))

/-- Frame effects of `BreakoutVolumeKDJSelector._passes_filters`
(Selector.py lines 834–894): `hist = hist.tail(max_window).copy()` (838,
fresh frame with transformed rows), `hist = compute_kdj(hist)` (846,
rebinds `hist` to the frame `df.assign` allocates), then in-place
`pct_chg` (847) and `DIF` (848) on that rebound frame. -/
def breakoutFilterHeap (colcomp : String → Frame → List ℚ) (rowTransform : Frame → Frame)
    (h : Heap) (a : ℕ) : Heap :=
  let h1 := (alloc h (rowTransform (heapGet h a))).1
  let a1 := (alloc h (rowTransform (heapGet h a))).2
  let h2 := (alloc h1 (setcol (setcol (setcol (heapGet h1 a1) "K"
    (colcomp "K" (heapGet h1 a1))) "D" (colcomp "D" (heapGet h1 a1))) "J"
    (colcomp "J" (heapGet h1 a1)))).1
  let a2 := (alloc h1 (setcol (setcol (setcol (heapGet h1 a1) "K"
    (colcomp "K" (heapGet h1 a1))) "D" (colcomp "D" (heapGet h1 a1))) "J"
    (colcomp "J" (heapGet h1 a1)))).2
  let h3 := setcolAt h2 a2 "pct_chg" (colcomp "pct_chg" (heapGet h2 a2))
  setcolAt h3 a2 "DIF" (colcomp "DIF" (heapGet h3 a2))

-- ======================= theorems =======================

theorem mapRange_getD {α : Type} (f : ℕ → α) (k t : ℕ) (d : α) (h : t < k) :
    ((List.range k).map f).getD t d = f t := by
  rw [List.getD_eq_getElem?_getD, List.getElem?_map, List.getElem?_range h]
  rfl

theorem kdjRec_length (k d : ℚ) (rs : List ℚ) : (kdjRec k d rs).length = rs.length := by
  induction rs generalizing k d with
  | nil => rfl
  | cons r rest ih => simp [kdjRec, ih]

theorem map_kd_getD (kd : List (ℚ × ℚ)) (i : ℕ) (h : i < kd.length) :
    (kd.map (fun p => (p.1, p.2, 3 * p.1 - 2 * p.2))).getD i (0, 0, 0) =
      ((kd.getD i (0, 0)).1, (kd.getD i (0, 0)).2,
        3 * (kd.getD i (0, 0)).1 - 2 * (kd.getD i (0, 0)).2) := by
  rw [List.getD_eq_getElem?_getD, List.getElem?_map, List.getElem?_eq_getElem h]
  rw [List.getD_eq_getElem?_getD, List.getElem?_eq_getElem h]
  rfl

theorem kdjRec_getD (rs : List ℚ) (k d : ℚ) (i : ℕ) (h : i < rs.length) :
    ((k, d) :: kdjRec k d rs).getD (i + 1) (0, 0) =
      (2 / 3 * (((k, d) :: kdjRec k d rs).getD i (0, 0)).1 + 1 / 3 * rs.getD i 0,
       2 / 3 * (((k, d) :: kdjRec k d rs).getD i (0, 0)).2 +
         1 / 3 * (2 / 3 * (((k, d) :: kdjRec k d rs).getD i (0, 0)).1 + 1 / 3 * rs.getD i 0)) := by
  induction rs generalizing k d i with
  | nil => simp at h
  | cons r rest ih =>
    cases i with
    | zero => simp [kdjRec]
    | succ j =>
      have hj : j < rest.length := by simpa using h
      have := ih (2 / 3 * k + 1 / 3 * r) (2 / 3 * d + 1 / 3 * (2 / 3 * k + 1 / 3 * r)) j hj
      simpa [kdjRec, List.getD_cons_succ] using this

/-- Claim C3: for every non-empty series, `compute_kdj` has one output row
per input row, seeds `K(0) = D(0) = 50`, follows the recurrences
`K(t) = 2/3·K(t−1) + 1/3·RSV(t)` and `D(t) = 2/3·D(t−1) + 1/3·K(t)`,
satisfies `J(t) = 3·K(t) − 2·D(t)` everywhere, where `RSV(t)` is
`100·(close(t) − rolling n-bar min of low)/(rolling n-bar max of high −
rolling n-bar min of low + 1e-9)` with `min_periods = 1`; and on the empty
series it returns the empty (NaN) columns instead of raising. -/
theorem c3_compute_kdj (bars : List Bar) (n : ℕ) (hne : bars ≠ []) :
    (compute_kdj bars n).length = bars.length ∧
    (compute_kdj bars n).getD 0 (0, 0, 0) = (50, 50, 50) ∧
    (∀ t, t + 1 < bars.length →
      ((compute_kdj bars n).getD (t + 1) (0, 0, 0)).1 =
        2 / 3 * ((compute_kdj bars n).getD t (0, 0, 0)).1 + 1 / 3 * (rsvList bars n).getD (t + 1) 0 ∧
      ((compute_kdj bars n).getD (t + 1) (0, 0, 0)).2.1 =
        2 / 3 * ((compute_kdj bars n).getD t (0, 0, 0)).2.1 +
          1 / 3 * ((compute_kdj bars n).getD (t + 1) (0, 0, 0)).1) ∧
    (∀ t, t < bars.length →
      ((compute_kdj bars n).getD t (0, 0, 0)).2.2 =
        3 * ((compute_kdj bars n).getD t (0, 0, 0)).1 -
          2 * ((compute_kdj bars n).getD t (0, 0, 0)).2.1) ∧
    (∀ t, t < bars.length →
      (rsvList bars n).getD t 0 =
        100 * (((bars.getD t default).close -
            listMin (((bars.map (·.low)).take (t + 1)).drop (t + 1 - n))) /
          (listMax (((bars.map (·.high)).take (t + 1)).drop (t + 1 - n)) -
            listMin (((bars.map (·.low)).take (t + 1)).drop (t + 1 - n)) + 1 / 1000000000))) ∧
    compute_kdj ([] : List Bar) n = [] := by
  obtain ⟨b, bs, rfl⟩ := List.exists_cons_of_ne_nil hne
  have hlen : (rsvList (b :: bs) n).length = bs.length + 1 := by
    simp [rsvList]
  have hck : compute_kdj (b :: bs) n =
      ((50, 50) :: kdjRec 50 50 ((rsvList (b :: bs) n).drop 1)).map
        (fun p => (p.1, p.2, 3 * p.1 - 2 * p.2)) := rfl
  have hkd : ((50, 50) :: kdjRec 50 50 ((rsvList (b :: bs) n).drop 1)).length = bs.length + 1 := by
    rw [List.length_cons, kdjRec_length, List.length_drop, hlen]
    omega
  refine ⟨?_, ?_, ?_, ?_, ?_, rfl⟩
  · rw [hck, List.length_map, hkd, List.length_cons]
  · rw [hck]
    have h0 : (0 : ℕ) < ((50, 50) :: kdjRec 50 50 ((rsvList (b :: bs) n).drop 1)).length := by
      rw [hkd]; omega
    rw [map_kd_getD _ _ h0]
    norm_num
  · intro t ht
    have htk : t + 1 < ((50, 50) :: kdjRec 50 50 ((rsvList (b :: bs) n).drop 1)).length := by
      rw [hkd]; simpa using ht
    have htk0 : t < ((50, 50) :: kdjRec 50 50 ((rsvList (b :: bs) n).drop 1)).length :=
      Nat.lt_of_succ_lt htk
    have hdrop : t < ((rsvList (b :: bs) n).drop 1).length := by
      rw [List.length_drop, hlen]; simpa using ht
    have hrec := kdjRec_getD ((rsvList (b :: bs) n).drop 1) 50 50 t hdrop
    have hgd : ((rsvList (b :: bs) n).drop 1).getD t 0 = (rsvList (b :: bs) n).getD (t + 1) 0 := by
      rw [List.getD_eq_getElem?_getD, List.getD_eq_getElem?_getD, List.getElem?_drop,
        Nat.add_comm 1 t]
    rw [hgd] at hrec
    constructor
    · rw [hck, map_kd_getD _ _ htk, map_kd_getD _ _ htk0]
      simp only
      rw [hrec]
    · rw [hck, map_kd_getD _ _ htk, map_kd_getD _ _ htk0]
      simp only
      rw [hrec]
  · intro t ht
    have htk0 : t < ((50, 50) :: kdjRec 50 50 ((rsvList (b :: bs) n).drop 1)).length := by
      rw [hkd]; simpa using ht
    rw [hck, map_kd_getD _ _ htk0]
  · intro t ht
    have hc : (bars' : List Bar) → t < bars'.length →
        ((bars'.map (·.close)).getD t 0) = (bars'.getD t default).close := by
      intro bars' h
      rw [List.getD_eq_getElem?_getD, List.getElem?_map, List.getElem?_eq_getElem h]
      rw [List.getD_eq_getElem?_getD, List.getElem?_eq_getElem h]
      rfl
    simp only [rsvList]
    rw [mapRange_getD _ _ _ _ (by simpa using ht)]
    rw [hc _ (by simpa using ht)]
    have hlow : (rollApply listMin n ((b :: bs).map (·.low))).getD t 0 =
        listMin ((((b :: bs).map (·.low)).take (t + 1)).drop (t + 1 - n)) := by
      simp only [rollApply]
      rw [mapRange_getD _ _ _ _ (by simpa using ht)]
    have hhigh : (rollApply listMax n ((b :: bs).map (·.high))).getD t 0 =
        listMax ((((b :: bs).map (·.high)).take (t + 1)).drop (t + 1 - n)) := by
      simp only [rollApply]
      rw [mapRange_getD _ _ _ _ (by simpa using ht)]
    rw [hlow, hhigh]
    ring

/-- Witness for C3 at a concrete two-bar series with `n = 9`. -/
theorem c3_witness :
    ([⟨0, 1, 2, 1, 2, 5⟩, ⟨1, 2, 3, 2, 3, 6⟩] : List Bar) ≠ [] ∧
    (compute_kdj [⟨0, 1, 2, 1, 2, 5⟩, ⟨1, 2, 3, 2, 3, 6⟩] 9).length = 2 :=
  ⟨by decide, (c3_compute_kdj [⟨0, 1, 2, 1, 2, 5⟩, ⟨1, 2, 3, 2, 3, 6⟩] 9 (by decide)).1⟩

/-- Claim C6: `compute_rsv` matches the documented formula pointwise, with
the high-side reference being the rolling max of CLOSE. -/
theorem c6_compute_rsv (bars : List Bar) (n : ℕ) (_hn : 1 ≤ n) :
    (compute_rsv bars n).length = bars.length ∧
    ∀ t, t < bars.length →
      (compute_rsv bars n).getD t 0 =
        100 * (((bars.getD t default).close -
            listMin (((bars.map (·.low)).take (t + 1)).drop (t + 1 - n))) /
          (listMax (((bars.map (·.close)).take (t + 1)).drop (t + 1 - n)) -
            listMin (((bars.map (·.low)).take (t + 1)).drop (t + 1 - n)) + 1 / 1000000000)) := by
  constructor
  · simp [compute_rsv]
  · intro t ht
    have hc : ((bars.map (·.close)).getD t 0) = (bars.getD t default).close := by
      rw [List.getD_eq_getElem?_getD, List.getElem?_map, List.getElem?_eq_getElem ht]
      rw [List.getD_eq_getElem?_getD, List.getElem?_eq_getElem ht]
      rfl
    simp only [compute_rsv]
    rw [mapRange_getD _ _ _ _ ht, hc]
    have hlow : (rollApply listMin n (bars.map (·.low))).getD t 0 =
        listMin (((bars.map (·.low)).take (t + 1)).drop (t + 1 - n)) := by
      simp only [rollApply]
      rw [mapRange_getD _ _ _ _ (by simpa using ht)]
    have hhigh : (rollApply listMax n (bars.map (·.close))).getD t 0 =
        listMax (((bars.map (·.close)).take (t + 1)).drop (t + 1 - n)) := by
      simp only [rollApply]
      rw [mapRange_getD _ _ _ _ (by simpa using ht)]
    rw [hlow, hhigh]
    ring

/-- Witness for C6 on a concrete one-bar series with `n = 1`. -/
theorem c6_witness :
    (1 : ℕ) ≤ 1 ∧ (compute_rsv [⟨0, 1, 2, 1, 2, 5⟩] 1).length = 1 :=
  ⟨le_refl 1, (c6_compute_rsv [⟨0, 1, 2, 1, 2, 5⟩] 1 (le_refl 1)).1⟩

theorem tailSlice_length {α : Type} (w : ℕ) (l : List α) (hw : w ≠ 0) (hle : w ≤ l.length) :
    (tailSlice w l).length = w := by
  simp only [tailSlice, if_neg hw, List.length_drop]
  omega

theorem listDiff_length (l : List ℚ) : (listDiff l).length = l.length - 1 := by
  simp [listDiff]

theorem descRange_mem (l m w : ℕ) : w ∈ descRange l m ↔ (m ≤ w ∧ w ≤ l) := by
  simp only [descRange, List.mem_map, List.mem_range]
  constructor
  · rintro ⟨i, hi, rfl⟩
    omega
  · rintro ⟨h1, h2⟩
    exact ⟨l - w, by omega, by omega⟩

theorem uptrendLoop_eq (b : List ℚ) (q : ℚ) (ws : List ℕ)
    (hws : ∀ w ∈ ws, 2 ≤ w ∧ w ≤ b.length) :
    uptrendLoop b q ws =
      .ok (decide (∃ w ∈ ws, 0 ≤ quantile (windowDiffs b w) q)) := by
  induction ws with
  | nil => simp [uptrendLoop]
  | cons w tl ih =>
    obtain ⟨hw2, hwle⟩ := hws w (List.mem_cons_self w tl)
    have hlen : (tailSlice w b).length = w := tailSlice_length w b (by omega) hwle
    have hsne : tailSlice w b ≠ [] := by
      intro hc
      rw [hc] at hlen
      simp at hlen
      omega
    have hdlen : (windowDiffs b w).length = w - 1 := by
      simp only [windowDiffs]
      rw [listDiff_length, List.length_map, hlen]
    have hdne : windowDiffs b w ≠ [] := by
      intro hc
      rw [hc] at hdlen
      simp at hdlen
      omega
    simp only [uptrendLoop, if_neg hsne, if_neg hdne]
    by_cases hq : 0 ≤ quantile (windowDiffs b w) q
    · rw [if_pos hq]
      have hex : (∃ x ∈ w :: tl, 0 ≤ quantile (windowDiffs b x) q) :=
        ⟨w, List.mem_cons_self w tl, hq⟩
      rw [decide_eq_true hex]
    · rw [if_neg hq, ih (fun x hx => hws x (List.mem_cons_of_mem _ hx))]
      have hiff : (∃ x ∈ w :: tl, 0 ≤ quantile (windowDiffs b x) q) ↔
          (∃ x ∈ tl, 0 ≤ quantile (windowDiffs b x) q) := by
        constructor
        · rintro ⟨x, hx, hpx⟩
          rcases List.mem_cons.mp hx with rfl | hx2
          · exact absurd hpx hq
          · exact ⟨x, hx2, hpx⟩
        · rintro ⟨x, hx, hpx⟩
          exact ⟨x, List.mem_cons_of_mem _ hx, hpx⟩
      rw [decide_eq_decide.mpr hiff]

/-- Counterexample for claim C2: with `min_window = 1` the scan reaches a
one-element window, whose empty first-difference list makes `np.quantile`
raise — the function errors instead of returning `false` as claimed. -/
theorem c2_counterexample :
    bbi_deriv_uptrend [some 3, some 2, some 1] 1 none 0 =
      .error "zero-size array to reduction operation" ∧
    bbi_deriv_uptrend [some 3, some 2, some 1] 1 none 0 ≠ .ok false := by
  constructor
  · with_unfolding_all decide
  · with_unfolding_all decide

/-- Claim C2 (amended): provided `min_window ≥ 2` (so that every scanned
window has a nonempty difference list) and `q ∈ [0, 1]`, `bbi_deriv_uptrend`
drops NaNs, fails when fewer than `min_window` values remain, and otherwise
returns true iff some window length `w` between `min_window` and
`longest = min(remaining, max_window or remaining)` — scanned longest-first —
has `q`-quantile of normalized first differences ≥ 0. -/
theorem c2_amended_uptrend (bbi : List (Option ℚ)) (min_window : ℕ) (max_window : Option ℕ)
    (q : ℚ) (hq : 0 ≤ q ∧ q ≤ 1) (hmw : 2 ≤ min_window) :
    bbi_deriv_uptrend bbi min_window max_window q =
      .ok (decide (∃ w ∈ descRange (longestOf (bbi.filterMap id).length max_window) min_window,
        0 ≤ quantile (windowDiffs (bbi.filterMap id) w) q)) ∧
    ∀ w, w ∈ descRange (longestOf (bbi.filterMap id).length max_window) min_window ↔
      (min_window ≤ w ∧ w ≤ longestOf (bbi.filterMap id).length max_window) := by
  refine ⟨?_, fun w => descRange_mem _ _ w⟩
  rw [bbi_deriv_uptrend, if_neg (not_not_intro hq)]
  by_cases hlen : (bbi.filterMap id).length < min_window
  · rw [if_pos hlen]
    have hlongest : longestOf (bbi.filterMap id).length max_window + 1 - min_window = 0 := by
      have := Nat.min_le_left (bbi.filterMap id).length
        (match max_window with
          | none => (bbi.filterMap id).length
          | some m => if m = 0 then (bbi.filterMap id).length else m)
      simp only [longestOf]
      omega
    simp [descRange, hlongest]
  · rw [if_neg hlen]
    apply uptrendLoop_eq
    intro w hw
    rw [descRange_mem] at hw
    refine ⟨by omega, ?_⟩
    have h2 := hw.2
    have := Nat.min_le_left (bbi.filterMap id).length
      (match max_window with
        | none => (bbi.filterMap id).length
        | some m => if m = 0 then (bbi.filterMap id).length else m)
    simp only [longestOf] at h2
    omega

/-- Witness for the amended C2 at a concrete increasing series. -/
theorem c2_witness :
    bbi_deriv_uptrend [some 1, some 2, some 3] 2 none 0 = .ok true := by
  have h := (c2_amended_uptrend [some 1, some 2, some 3] 2 none 0
    (by norm_num) (by norm_num)).1
  rw [h]
  with_unfolding_all decide

theorem filterMap_map_scale (bbi : List (Option ℚ)) (c : ℚ) :
    (bbi.map (Option.map (fun x => c * x))).filterMap id =
      (bbi.filterMap id).map (fun x => c * x) := by
  induction bbi with
  | nil => rfl
  | cons o tl ih =>
    cases o <;> simp [ih]

theorem tailSlice_map (w : ℕ) (l : List ℚ) (f : ℚ → ℚ) :
    tailSlice w (l.map f) = (tailSlice w l).map f := by
  simp only [tailSlice, List.length_map]
  by_cases hw : w = 0
  · simp [hw]
  · simp [hw, List.map_drop]

theorem windowDiffs_scale (b : List ℚ) (w : ℕ) (c : ℚ) (hc : c ≠ 0) :
    windowDiffs (b.map (fun x => c * x)) w = windowDiffs b w := by
  simp only [windowDiffs, tailSlice_map]
  cases tailSlice w b with
  | nil => rfl
  | cons s0 rest =>
    have hhd : (((s0 :: rest) : List ℚ).map (fun x => c * x)).headD 1 = c * s0 := rfl
    have hhd2 : ((s0 :: rest) : List ℚ).headD 1 = s0 := rfl
    rw [hhd, hhd2, List.map_map]
    congr 1
    apply List.map_congr_left
    intro x _
    show c * x / (c * s0) = x / s0
    rw [mul_div_mul_left _ _ hc]

theorem uptrendLoop_scale (b : List ℚ) (q c : ℚ) (hc : c ≠ 0) (ws : List ℕ) :
    uptrendLoop (b.map (fun x => c * x)) q ws = uptrendLoop b q ws := by
  induction ws with
  | nil => rfl
  | cons w tl ih =>
    have hts : tailSlice w (b.map (fun x => c * x)) = (tailSlice w b).map (fun x => c * x) :=
      tailSlice_map w b _
    have hem : tailSlice w (b.map (fun x => c * x)) = [] ↔ tailSlice w b = [] := by
      rw [hts, List.map_eq_nil_iff]
    have hwd := windowDiffs_scale b w c hc
    by_cases hseg : tailSlice w b = []
    · simp only [uptrendLoop, if_pos hseg, if_pos (hem.mpr hseg)]
    · simp only [uptrendLoop, if_neg hseg, if_neg (fun hx => hseg (hem.mp hx)), hwd, ih]

/-- Claim C8: `bbi_deriv_uptrend` is invariant under scaling the whole BBI
series by a positive constant — the per-window normalization cancels the
scale exactly, including all error branches. -/
theorem c8_scale_invariance (bbi : List (Option ℚ)) (min_window : ℕ) (max_window : Option ℕ)
    (q c : ℚ) (hc : 0 < c) :
    bbi_deriv_uptrend (bbi.map (Option.map (fun x => c * x))) min_window max_window q =
      bbi_deriv_uptrend bbi min_window max_window q := by
  have hc0 : c ≠ 0 := ne_of_gt hc
  rw [bbi_deriv_uptrend, bbi_deriv_uptrend, filterMap_map_scale, List.length_map]
  by_cases hv : ¬ (0 ≤ q ∧ q ≤ 1)
  · rw [if_pos hv, if_pos hv]
  · rw [if_neg hv, if_neg hv]
    by_cases hlen : (bbi.filterMap id).length < min_window
    · rw [if_pos hlen, if_pos hlen]
    · rw [if_neg hlen, if_neg hlen, uptrendLoop_scale _ _ _ hc0]

/-- Witness for C8 at a concrete series scaled by `c = 2`. -/
theorem c8_witness :
    bbi_deriv_uptrend (([some 1, some 2] : List (Option ℚ)).map (Option.map (fun x => 2 * x)))
        2 none 0 =
      bbi_deriv_uptrend [some 1, some 2] 2 none 0 ∧ (0 : ℚ) < 2 :=
  ⟨c8_scale_invariance [some 1, some 2] 2 none 0 2 (by norm_num), by norm_num⟩

/-- Counterexample for claim C5: `BBIKDJSelector` accepts
`bbi_q_threshold = 2` (outside `[0, 1]`) at construction without error, and
the configuration-range error is instead raised later, during filter
evaluation (inside `bbi_deriv_uptrend`). -/
theorem c5_counterexample :
    mkBBIKDJSelector (-5) 90 90 100 2 (1 / 10) = .ok ⟨-5, 90, 90, 100, 2, 1 / 10⟩ ∧
    bbikdj_passes ⟨-5, 90, 90, 100, 2, 1 / 10⟩ [⟨0, 1, 1, 1, 1, 1⟩, ⟨1, 1, 1, 1, 1, 1⟩] =
      .error "q_threshold 必须位于 [0, 1] 区间内" := by
  constructor
  · rfl
  · with_unfolding_all decide

/-- Claim C5 (amended): only `SuperB1Selector` (its own five top-level
parameters and the presence of the nested configuration) and
`BBIShortLongSelector` (`m ≥ 2`) validate at construction.
`BBIKDJSelector`, `PeakKDJSelector` and `BreakoutVolumeKDJSelector` accept
any parameter values, and an out-of-range `bbi_q_threshold` raises only
later, inside `bbi_deriv_uptrend` during filter evaluation. -/
theorem c5_amended_validation :
    (∀ jt prp bq jq (bmw mw : ℕ), mkBBIKDJSelector jt bmw mw prp bq jq =
      .ok ⟨jt, bmw, mw, prp, bq, jq⟩) ∧
    (∀ jt ft gt jq (mw : ℕ), mkPeakKDJSelector jt mw ft gt jq =
      .ok ⟨jt, mw, ft, gt, jq⟩) ∧
    (∀ jt ut vt prp jq (off mw : ℕ), mkBreakoutVolumeKDJSelector jt ut vt off mw prp jq =
      .ok ⟨jt, ut, vt, off, mw, prp, jq⟩) ∧
    mkSuperB1Selector 60 (1 / 20) (3 / 100) (-5) 2 (some ⟨-5, 90, 90, 100, (1 / 20), (1 / 10)⟩) =
      .error "j_q_threshold 应位于 [0, 1] 区间" ∧
    mkSuperB1Selector 60 (1 / 20) (3 / 100) (-5) (1 / 10) none = .error "bbi_params没有给出" ∧
    mkBBIShortLongSelector 3 21 1 90 150 (1 / 20) = .error "m 必须 ≥ 2" ∧
    bbi_deriv_uptrend [none] 90 (some 90) 2 = .error "q_threshold 必须位于 [0, 1] 区间内" := by
  refine ⟨fun jt prp bq jq bmw mw => rfl, fun jt ft gt jq mw => rfl,
    fun jt ut vt prp jq off mw => rfl, ?_, ?_, ?_, ?_⟩
  · with_unfolding_all decide
  · with_unfolding_all decide
  · with_unfolding_all decide
  · with_unfolding_all decide

theorem stableSeg_length (closes : List ℚ) (idx : ℕ) :
    (stableSeg closes idx).length = closes.length - 1 - idx := by
  simp [stableSeg]

theorem superb1SearchLoop_eq_find (innerPass : ℕ → Bool) (closes : List ℚ) (vol : ℚ)
    (l : List ℕ) (hl : l.Pairwise (· < ·)) :
    superb1SearchLoop innerPass closes vol l =
      l.find? (superb1Good innerPass closes vol) := by
  induction l with
  | nil => rfl
  | cons idx rest ih =>
    have hlt : ∀ j ∈ rest, idx < j := (List.pairwise_cons.mp hl).1
    have hrest := (List.pairwise_cons.mp hl).2
    by_cases hip : innerPass idx
    · by_cases hlen : (stableSeg closes idx).length < 3
      · have h3 : decide (3 ≤ (stableSeg closes idx).length) = false :=
          decide_eq_false (by omega)
        have hgidx : superb1Good innerPass closes vol idx = false := by
          simp [superb1Good, h3]
        simp only [superb1SearchLoop, if_pos hip, if_pos hlen]
        rw [List.find?_cons_of_neg _ (by rw [hgidx]; exact Bool.false_ne_true)]
        symm
        rw [List.find?_eq_none]
        intro j hj
        have hjlen : (stableSeg closes j).length < 3 := by
          rw [stableSeg_length] at hlen ⊢
          have := hlt j hj
          omega
        have h3j : decide (3 ≤ (stableSeg closes j).length) = false :=
          decide_eq_false (by omega)
        simp [superb1Good, h3j]
      · by_cases hvol : listMin (stableSeg closes idx) ≤ 0 ∨
            listMax (stableSeg closes idx) / listMin (stableSeg closes idx) - 1 > vol
        · have hgidx : superb1Good innerPass closes vol idx = false := by
            simp only [superb1Good, Bool.and_eq_false_iff]
            right
            rcases hvol with h | h
            · simp [h]
            · simp [h]
          simp only [superb1SearchLoop, if_pos hip, if_neg (by omega : ¬ (stableSeg closes idx).length < 3),
            if_pos hvol]
          rw [List.find?_cons_of_neg _ (by rw [hgidx]; exact Bool.false_ne_true)]
          exact ih hrest
        · have hgidx : superb1Good innerPass closes vol idx = true := by
            have h3 : decide (3 ≤ (stableSeg closes idx).length) = true :=
              decide_eq_true (by omega)
            push_neg at hvol
            simp [superb1Good, hip, h3, hvol.1, hvol.2]
          simp only [superb1SearchLoop, if_pos hip,
            if_neg (by omega : ¬ (stableSeg closes idx).length < 3), if_neg hvol]
          rw [List.find?_cons_of_pos _ hgidx]
    · have hgidx : superb1Good innerPass closes vol idx = false := by
        simp [superb1Good, hip]
      simp only [superb1SearchLoop, if_neg hip]
      rw [List.find?_cons_of_neg _ (by rw [hgidx]; exact Bool.false_ne_true)]
      exact ih hrest

theorem superb1Candidates_pairwise (n lb : ℕ) :
    (superb1Candidates n lb).Pairwise (· < ·) := by
  unfold superb1Candidates
  rw [List.pairwise_map]
  exact (List.pairwise_lt_range _).imp (fun h => by omega)

/-- Counterexample for claim C1: the Step-1 search scans candidates
oldest-first, not most-recent-first.  With the inner filter passing at
positions 23 and 25 (both fully qualifying), the code picks the earliest
(position 23) while the claim's most-recent-first reading picks 25. -/
theorem c1_counterexample :
    superb1SearchTm c1InnerEx c1ClosesEx 6 1 = some 23 ∧
    superb1SearchTmSpec c1InnerEx c1ClosesEx 6 1 = some 25 ∧
    superb1SearchTm c1InnerEx c1ClosesEx 6 1 ≠
      superb1SearchTmSpec c1InnerEx c1ClosesEx 6 1 := by
  refine ⟨?_, ?_, ?_⟩ <;> with_unfolding_all decide

/-- Claim C1 (amended): the Step-1 search of `SuperB1Selector._passes_filters`
scans the last `lookback_n+1` positions (excluding the target itself) in
ascending order and returns the EARLIEST candidate that passes the inner
filter and the consolidation check; a qualifying-inner candidate with fewer
than 3 bars left aborts the search, but since spans only shrink for later
candidates the search still succeeds iff SOME candidate satisfies both
conditions — so its pass/fail outcome agrees with the claim's
most-recent-first reading, and the overall filter fails at this step only
if no candidate date satisfies both conditions. -/
theorem c1_amended_search (innerPass : ℕ → Bool) (closes : List ℚ) (lookback_n : ℕ) (vol : ℚ) :
    superb1SearchTm innerPass closes lookback_n vol =
      (superb1Candidates closes.length lookback_n).find?
        (superb1Good innerPass closes vol) ∧
    ((superb1SearchTm innerPass closes lookback_n vol).isSome = true ↔
      ∃ idx ∈ superb1Candidates closes.length lookback_n,
        superb1Good innerPass closes vol idx = true) ∧
    (superb1SearchTm innerPass closes lookback_n vol).isSome =
      (superb1SearchTmSpec innerPass closes lookback_n vol).isSome := by
  have hfind := superb1SearchLoop_eq_find innerPass closes vol
    (superb1Candidates closes.length lookback_n)
    (superb1Candidates_pairwise closes.length lookback_n)
  refine ⟨hfind, ?_, ?_⟩
  · rw [superb1SearchTm, hfind, List.find?_isSome]
  · rw [superb1SearchTm, hfind, superb1SearchTmSpec]
    rw [Bool.eq_iff_iff, List.find?_isSome, List.find?_isSome]
    constructor
    · rintro ⟨x, hx, hpx⟩
      exact ⟨x, List.mem_reverse.mpr hx, hpx⟩
    · rintro ⟨x, hx, hpx⟩
      exact ⟨x, List.mem_reverse.mp hx, hpx⟩

/-- Claim C9: the RSV stage of `BBIShortLongSelector` passes iff, over the
trailing `m` bars, long RSV is ≥ 80 on every bar, short RSV is ≥ 80 at the
first and last bar, and short RSV dips below 20 at least once; a history
with fewer than `m` bars makes the stage (and hence the filter) return
false rather than raise; and whenever the full filter passes, the RSV
stage holds. -/
theorem c9_rsv_stage (sel : BBIShortLongSelector) (hist : List Bar) :
    (rsv_stage sel.n_short sel.n_long sel.m hist = true ↔
      rsv_stage_spec sel.n_short sel.n_long sel.m hist) ∧
    (hist.length < sel.m → rsv_stage sel.n_short sel.n_long sel.m hist = false) ∧
    (bbishortlong_passes sel hist = .ok true →
      rsv_stage sel.n_short sel.n_long sel.m hist = true) := by
  refine ⟨?_, ?_, ?_⟩
  · by_cases hlen : hist.length < sel.m
    · rw [rsv_stage, if_pos hlen]
      simp only [Bool.false_eq_true, false_iff]
      rintro ⟨h1, -⟩
      omega
    · rw [rsv_stage, if_neg hlen]
      simp only [Bool.and_eq_true, List.all_eq_true, List.any_eq_true, decide_eq_true_eq,
        rsv_stage_spec]
      constructor
      · rintro ⟨⟨hL, hh, hl2⟩, ha⟩
        exact ⟨by omega, hL, hh, hl2, ha⟩
      · rintro ⟨-, hL, hh, hl2, ha⟩
        exact ⟨⟨hL, hh, hl2⟩, ha⟩
  · intro h
    rw [rsv_stage, if_pos h]
  · intro hp
    unfold bbishortlong_passes at hp
    cases hbd : bbi_deriv_uptrend (compute_bbi hist) sel.bbi_min_window (some sel.max_window)
        sel.bbi_q_threshold with
    | error e => rw [hbd] at hp; simp at hp
    | ok up =>
      rw [hbd] at hp
      cases up with
      | false => simp at hp
      | true =>
        cases hrs : rsv_stage sel.n_short sel.n_long sel.m hist with
        | true => rfl
        | false => simp [hrs] at hp

set_option maxRecDepth 1000000 in
/-- Witness for C9: on the concrete 26-bar series the whole filter passes
and the RSV stage holds, both operationally and declaratively. -/
theorem c9_witness :
    rsv_stage c9SelW.n_short c9SelW.n_long c9SelW.m c9HistW = true ∧
    rsv_stage_spec c9SelW.n_short c9SelW.n_long c9SelW.m c9HistW := by
  have h := c9_rsv_stage c9SelW c9HistW
  have hpass : bbishortlong_passes c9SelW c9HistW = .ok true := by
    with_unfolding_all decide
  have ht := h.2.2 hpass
  exact ⟨ht, h.1.mp ht⟩

/-- Counterexample for claim C4: `select` has no per-symbol exception
isolation.  With symbol "A" raising and symbol "B" passing, the batch
raises and no pick list is produced, so "B"'s pass outcome is not
reflected anywhere — even though "B" evaluates fine on its own. -/
theorem c4_counterexample :
    selectSymbols c4EvalEx [("A", 0), ("B", 1)] = .error "KeyError close" ∧
    c4EvalEx 1 = .ok true := by
  constructor
  · rfl
  · rfl

/-- Claim C4 (amended): `select` does not isolate per-symbol failures — an
exception in any symbol's evaluation propagates and aborts the whole
batch; only when every symbol evaluates without error does `select` return
the pick list, which then contains exactly the passing symbols in mapping
order. -/
theorem c4_amended_select {α : Type} (evalOne : α → Except String Bool)
    (data : List (String × α)) :
    ((∀ p ∈ data, (evalOne p.2).isOk = true) →
      selectSymbols evalOne data = .ok ((data.filter (fun p =>
        match evalOne p.2 with
        | .ok b => b
        | .error _ => false)).map Prod.fst)) ∧
    ((∃ p ∈ data, (evalOne p.2).isOk = false) →
      ∃ e, selectSymbols evalOne data = .error e) := by
  induction data with
  | nil =>
    constructor
    · intro _
      rfl
    · rintro ⟨p, hp, -⟩
      cases hp
  | cons p rest ih =>
    constructor
    · intro hall
      have hp := hall p (List.mem_cons_self p rest)
      cases hev : evalOne p.2 with
      | error e => rw [hev] at hp; simp [Except.isOk, Except.toBool] at hp
      | ok b =>
        have hrest := ih.1 (fun x hx => hall x (List.mem_cons_of_mem p hx))
        simp only [selectSymbols, hev, hrest, List.filter_cons]
        cases b with
        | true => simp
        | false => simp
    · rintro ⟨pq, hpq, hzero⟩
      rcases List.mem_cons.mp hpq with rfl | hpq2
      · cases hev : evalOne pq.2 with
        | error e => exact ⟨e, by simp [selectSymbols, hev]⟩
        | ok b => rw [hev] at hzero; simp [Except.isOk, Except.toBool] at hzero
      · cases hev : evalOne p.2 with
        | error e => exact ⟨e, by simp [selectSymbols, hev]⟩
        | ok b =>
          obtain ⟨e, he⟩ := ih.2 ⟨pq, hpq2, hzero⟩
          exact ⟨e, by simp [selectSymbols, hev, he]⟩

/-- Witness for the amended C4 on a concrete error-free batch. -/
theorem c4_witness :
    selectSymbols (fun v : ℕ => Except.ok (decide (v = 1))) [("A", 0), ("B", 1)] =
      .ok ["B"] := by
  have h := (c4_amended_select (fun v : ℕ => Except.ok (decide (v = 1)))
    [("A", 0), ("B", 1)]).1 (by intro p _; rfl)
  rw [h]
  rfl

theorem assoc_val_unique {α : Type} (data : List (String × α))
    (hnd : (data.map Prod.fst).Nodup) (c : String) (x y : α)
    (hx : (c, x) ∈ data) (hy : (c, y) ∈ data) : x = y := by
  induction data with
  | nil => cases hx
  | cons p rest ih =>
    have hnd2 : (rest.map Prod.fst).Nodup := (List.nodup_cons.mp hnd).2
    have hhead : p.1 ∉ rest.map Prod.fst := (List.nodup_cons.mp hnd).1
    rcases List.mem_cons.mp hx with rfl | hx2
    · rcases List.mem_cons.mp hy with h | hy2
      · exact (congrArg Prod.snd h).symm
      · exact absurd (List.mem_map.mpr ⟨(c, y), hy2, rfl⟩) hhead
    · rcases List.mem_cons.mp hy with rfl | hy2
      · exact absurd (List.mem_map.mpr ⟨(c, x), hx2, rfl⟩) hhead
      · exact ih hnd2 hx2 hy2

theorem select_mem_pair {α : Type} (data : List (String × α)) (q : (String × α) → Bool)
    (code : String) (df : α) (hnd : (data.map Prod.fst).Nodup)
    (hmem : (code, df) ∈ data)
    (hc : code ∈ (data.filter q).map Prod.fst) : q (code, df) = true := by
  obtain ⟨p, hpf, hpeq⟩ := List.mem_map.mp hc
  obtain ⟨hpd, hq⟩ := List.mem_filter.mp hpf
  obtain ⟨c1, x⟩ := p
  cases hpeq
  have hxdf : x = df := assoc_val_unique data hnd c1 x df hpd hmem
  rw [hxdf] at hq
  exact hq

/-- Claim C7: for each of the five selectors, a symbol returned by `select`
never gets the "did not pass" sentinel from `explain_selection` on the
same series — both paths truncate the history identically and re-run the
same deterministic filter. -/
theorem c7_roundtrip (date : ℤ) (data : List (String × List Bar)) (code : String)
    (df : List Bar) (passes : List Bar → Bool) (render : List Bar → String)
    (hnd : (data.map Prod.fst).Nodup) (hmem : (code, df) ∈ data)
    (hrender : ∀ x, render x ≠ sentinelMsg) :
    (∀ max_window, code ∈ bbikdjSelect passes max_window date data →
      bbikdjExplain passes render max_window date df ≠ sentinelMsg) ∧
    (∀ min_len, code ∈ superb1Select passes min_len date data →
      superb1Explain passes render min_len date df ≠ sentinelMsg) ∧
    (∀ max_window, code ∈ peakkdjSelect passes max_window date data →
      peakkdjExplain passes render max_window date df ≠ sentinelMsg) ∧
    (∀ need_len max_window, code ∈ bbishortlongSelect passes need_len max_window date data →
      bbishortlongExplain passes render need_len max_window date df ≠ sentinelMsg) ∧
    (code ∈ breakoutSelect passes date data →
      breakoutExplain passes render date df ≠ sentinelMsg) := by
  refine ⟨?_, ?_, ?_, ?_, ?_⟩
  · intro mw hc
    have hq := select_mem_pair data _ code df hnd hmem hc
    obtain ⟨-, hpass⟩ := Bool.and_eq_true_iff.mp hq
    rw [bbikdjExplain, if_neg (not_not_intro hpass)]
    exact hrender _
  · intro ml hc
    have hq := select_mem_pair data _ code df hnd hmem hc
    obtain ⟨-, hpass⟩ := Bool.and_eq_true_iff.mp hq
    rw [superb1Explain, if_neg (not_not_intro hpass)]
    exact hrender _
  · intro mw hc
    have hq := select_mem_pair data _ code df hnd hmem hc
    obtain ⟨-, hpass⟩ := Bool.and_eq_true_iff.mp hq
    rw [peakkdjExplain, if_neg (not_not_intro hpass)]
    exact hrender _
  · intro nl mw hc
    have hq := select_mem_pair data _ code df hnd hmem hc
    obtain ⟨hne, hpass⟩ := Bool.and_eq_true_iff.mp hq
    have hne2 : (truncAt date df).isEmpty = false := by
      cases h : (truncAt date df).isEmpty
      · rfl
      · rw [h] at hne; simp at hne
    rw [bbishortlongExplain, if_neg (by rw [hne2]; exact Bool.false_ne_true),
      if_neg (not_not_intro hpass)]
    exact hrender _
  · intro hc
    have hq := select_mem_pair data _ code df hnd hmem hc
    obtain ⟨-, hpass⟩ := Bool.and_eq_true_iff.mp hq
    rw [breakoutExplain, if_neg (not_not_intro hpass)]
    exact hrender _

/-- Witness for C7 on a concrete one-symbol mapping. -/
theorem c7_witness :
    bbikdjExplain (fun _ => true) (fun _ => "ok") 1 0 [c7Bar] ≠ sentinelMsg := by
  have hr : ∀ x : List Bar, (fun _ : List Bar => "ok") x ≠ sentinelMsg := by
    intro x
    show "ok" ≠ sentinelMsg
    decide
  exact (c7_roundtrip 0 [("A", [c7Bar])] "A" [c7Bar] (fun _ => true) (fun _ => "ok")
    (by decide) (by decide) hr).1 1 (by with_unfolding_all decide)

theorem alloc_fst_length (h : Heap) (f : Frame) : (alloc h f).1.length = h.length + 1 := by
  simp [alloc]

theorem alloc_snd (h : Heap) (f : Frame) : (alloc h f).2 = h.length := rfl

theorem setcolAt_length (h : Heap) (a : ℕ) (name : String) (v : List ℚ) :
    (setcolAt h a name v).length = h.length := by
  simp [setcolAt]

theorem heapGet_alloc (h : Heap) (f : Frame) (b : ℕ) (hb : b < h.length) :
    heapGet (alloc h f).1 b = heapGet h b := by
  simp only [heapGet, alloc]
  rw [List.getD_eq_getElem?_getD, List.getElem?_append_left hb, ← List.getD_eq_getElem?_getD]

theorem heapGet_setcolAt_ne (h : Heap) (a : ℕ) (name : String) (v : List ℚ) (b : ℕ)
    (hab : b ≠ a) :
    heapGet (setcolAt h a name v) b = heapGet h b := by
  simp only [heapGet, setcolAt]
  rw [List.getD_eq_getElem?_getD, List.getElem?_set_ne (fun hc => hab hc.symm),
    ← List.getD_eq_getElem?_getD]

/-- Claim C10: none of the four cited per-symbol filters mutates a
caller-supplied frame.  Every derived column (`BBI`, `K/D/J`, `DIF`,
`oc_max`, `is_peak`, `RSV_short`, `RSV_long`, `pct_chg`) is written to a
frame allocated inside the call — the explicit `.copy()` or a fresh
`assign`/mask result — so every heap cell that existed before the call is
unchanged after it. -/
theorem c10_no_mutation (colcomp : String → Frame → List ℚ) (rowTransform : Frame → Frame)
    (h : Heap) (a b : ℕ) (hb : b < h.length) :
    heapGet (bbikdjFilterHeap colcomp h a) b = heapGet h b ∧
    heapGet (peakkdjFilterHeap colcomp rowTransform h a) b = heapGet h b ∧
    heapGet (bbishortlongFilterHeap colcomp h a) b = heapGet h b ∧
    heapGet (breakoutFilterHeap colcomp rowTransform h a) b = heapGet h b := by
  refine ⟨?_, ?_, ?_, ?_⟩
  · simp only [bbikdjFilterHeap, alloc_snd]
    rw [heapGet_setcolAt_ne _ _ _ _ _ (by omega)]
    rw [heapGet_alloc _ _ _ (by rw [setcolAt_length, alloc_fst_length]; omega)]
    rw [heapGet_setcolAt_ne _ _ _ _ _ (by omega)]
    rw [heapGet_alloc _ _ _ hb]
  · simp only [peakkdjFilterHeap, alloc_snd]
    rw [heapGet_alloc _ _ _ (by
      rw [setcolAt_length, alloc_fst_length, setcolAt_length, alloc_fst_length]; omega)]
    rw [heapGet_setcolAt_ne _ _ _ _ _ (by rw [setcolAt_length, alloc_fst_length]; omega)]
    rw [heapGet_alloc _ _ _ (by rw [setcolAt_length, alloc_fst_length]; omega)]
    rw [heapGet_setcolAt_ne _ _ _ _ _ (by omega)]
    rw [heapGet_alloc _ _ _ hb]
  · simp only [bbishortlongFilterHeap, alloc_snd]
    rw [heapGet_setcolAt_ne _ _ _ _ _ (by omega)]
    rw [heapGet_setcolAt_ne _ _ _ _ _ (by omega)]
    rw [heapGet_setcolAt_ne _ _ _ _ _ (by omega)]
    rw [heapGet_setcolAt_ne _ _ _ _ _ (by omega)]
    rw [heapGet_alloc _ _ _ hb]
  · simp only [breakoutFilterHeap, alloc_snd]
    rw [heapGet_setcolAt_ne _ _ _ _ _ (by rw [alloc_fst_length]; omega)]
    rw [heapGet_setcolAt_ne _ _ _ _ _ (by rw [alloc_fst_length]; omega)]
    rw [heapGet_alloc _ _ _ (by rw [alloc_fst_length]; omega)]
    rw [heapGet_alloc _ _ _ hb]

/-- Witness for C10 on a concrete one-frame heap. -/
theorem c10_witness :
    heapGet (bbikdjFilterHeap (fun _ _ => []) [[("close", [1])]] 0) 0 =
      heapGet [[("close", [1])]] 0 :=
  (c10_no_mutation (fun _ _ => []) id [[("close", [1])]] 0 0 (by simp)).1
